import Mathlib

/-!
Verification of the chatbot in `src/components/test class.py`.

The program is a single REPL loop over a dictionary `brain` mapping phrases
to responses, loaded from the JSON file `chat_memory.json` at startup.
We embed it shallowly:

* Python strings are Lean `String` (a packed `List Char`); `str.strip()` and
  `str.lower()` are modelled character-exactly for the ASCII range by
  `pyStrip` and `pyLower` below (Lean core `Char.toLower` is the ASCII lower
  map, and `Char.isWhitespace` covers the whitespace the test inputs use).
* The dictionary `brain` is an association list `Brain` with Python dict
  semantics (`dlookup`, `dmem`, `dinsert`).
* `stdin` is a list of lines; each `input()` call consumes one line, and an
  exhausted list makes `input()` raise `EOFError`, which the program does not
  catch.  `session` runs the `while True:` loop over such a script and
  returns the final table, the lines printed by the loop body, and how the
  loop ended (`quitExit` for `break`, `eofCrash` for an uncaught `EOFError`).
* The startup file handling (`os.path.exists` / `json.load`) is modelled by
  `load` over the parse outcome of the file: `none` - no file, `some none` -
  file present but not valid JSON (`json.load` raises), `some (some v)` -
  file present and parsing to the JSON value `v`, which becomes `brain`
  unchanged, whatever its shape.
-/

/-- Python `c.isspace()`-style whitespace test used by `str.strip()`,
restricted to the ASCII whitespace of Lean core `Char.isWhitespace`. -/
def isWS (c : Char) : Bool := c.isWhitespace

/-- `l.dropWhile isWS` from both ends: the character-list body of
Python `str.strip()`. -/
def stripL (l : List Char) : List Char :=
  ((l.dropWhile isWS).reverse.dropWhile isWS).reverse

/-- Python `str.strip()` (ASCII-whitespace model). -/
def pyStrip (s : String) : String := ⟨stripL s.data⟩

/-- Python `str.lower()` (ASCII model: Lean core `Char.toLower` charwise). -/
def pyLower (s : String) : String := ⟨s.data.map Char.toLower⟩

/-- The normalization the source applies to every user line:
`input("You:").strip().lower()`. -/
def normalizeLine (s : String) : String := pyLower (pyStrip s)

-- Character-level facts about the ASCII lower map.

theorem char_toNat_ofNat {n : Nat} (h : n.isValidChar) :
    (Char.ofNat n).toNat = n := by
  rw [Char.ofNat, dif_pos h]
  simp [Char.ofNatAux, Char.toNat, UInt32.toNat]

theorem toLower_toNat (c : Char) :
    (Char.toLower c).toNat =
      if 65 ≤ c.toNat ∧ c.toNat ≤ 90 then c.toNat + 32 else c.toNat := by
  unfold Char.toLower
  split
  · next h =>
    rw [if_pos (by omega)]
    have hv : (c.toNat + 32).isValidChar := by
      have : c.toNat + 32 < 0xd800 := by omega
      exact Or.inl this
    exact char_toNat_ofNat hv
  · next h =>
    rw [if_neg (by omega)]

theorem toNat_inj {a b : Char} (h : a.toNat = b.toNat) : a = b := by
  apply Char.ext
  apply UInt32.toNat.inj
  exact h

theorem char_eq_iff_toNat {a b : Char} : a = b ↔ a.toNat = b.toNat :=
  ⟨fun h => by rw [h], toNat_inj⟩

theorem toLower_toLower (c : Char) :
    Char.toLower (Char.toLower c) = Char.toLower c := by
  apply toNat_inj
  rw [toLower_toNat, toLower_toNat c]
  split
  · next h => rw [if_neg (by omega)]
  · next h => rfl

theorem space_toNat : Char.toNat ' ' = 32 := by decide

theorem tab_toNat : Char.toNat '\t' = 9 := by decide

theorem cr_toNat : Char.toNat '\r' = 13 := by decide

theorem lf_toNat : Char.toNat '\n' = 10 := by decide

theorem isWS_iff (c : Char) :
    isWS c = true ↔ (c.toNat = 32 ∨ c.toNat = 9 ∨ c.toNat = 13 ∨ c.toNat = 10) := by
  simp only [isWS, Char.isWhitespace, Bool.or_eq_true, decide_eq_true_eq]
  rw [char_eq_iff_toNat, char_eq_iff_toNat, char_eq_iff_toNat, char_eq_iff_toNat,
      space_toNat, tab_toNat, cr_toNat, lf_toNat]
  tauto

theorem isWS_toLower (c : Char) : isWS (Char.toLower c) = isWS c := by
  rw [Bool.eq_iff_iff, isWS_iff, isWS_iff, toLower_toNat]
  split
  · next h => omega
  · next h => exact Iff.rfl

-- List-level facts about stripping.

theorem dropWhile_idem (p : α → Bool) (l : List α) :
    (l.dropWhile p).dropWhile p = l.dropWhile p := by
  induction l with
  | nil => rfl
  | cons a t ih =>
    by_cases h : p a
    · rw [List.dropWhile_cons_of_pos h, ih]
    · rw [List.dropWhile_cons_of_neg h, List.dropWhile_cons_of_neg h]

theorem dropWhile_eq_self_of_append {p : α → Bool} {l r : List α}
    (h : (l ++ r).dropWhile p = l ++ r) : l.dropWhile p = l := by
  cases l with
  | nil => rfl
  | cons a t =>
    have hpa : p a = false := by
      cases hq : p a with
      | false => rfl
      | true =>
        rw [List.cons_append, List.dropWhile_cons_of_pos hq] at h
        have hlen := congrArg List.length h
        have hle := (List.dropWhile_sublist (l := t ++ r) p).length_le
        simp only [List.length_cons] at hlen
        omega
    rw [List.dropWhile_cons_of_neg (by simp [hpa])]

theorem stripRightSplit (p : α → Bool) (l : List α) :
    ∃ r, l = (l.reverse.dropWhile p).reverse ++ r := by
  refine ⟨(l.reverse.takeWhile p).reverse, ?_⟩
  have h := List.takeWhile_append_dropWhile p l.reverse
  have h2 := congrArg List.reverse h
  rw [List.reverse_append, List.reverse_reverse] at h2
  exact h2.symm

theorem stripL_noLead (l : List Char) : (stripL l).dropWhile isWS = stripL l := by
  unfold stripL
  have hA : (l.dropWhile isWS).dropWhile isWS = l.dropWhile isWS :=
    dropWhile_idem isWS l
  obtain ⟨r, hr⟩ := stripRightSplit isWS (l.dropWhile isWS)
  apply dropWhile_eq_self_of_append (r := r)
  rw [← hr]
  exact hA

theorem stripL_idem (l : List Char) : stripL (stripL l) = stripL l := by
  have h1 : (stripL l).dropWhile isWS = stripL l := stripL_noLead l
  show (((stripL l).dropWhile isWS).reverse.dropWhile isWS).reverse = stripL l
  rw [h1]
  show ((stripL l).reverse.dropWhile isWS).reverse = stripL l
  unfold stripL
  rw [List.reverse_reverse, dropWhile_idem]

theorem stripL_map_toLower (l : List Char) :
    stripL (l.map Char.toLower) = (stripL l).map Char.toLower := by
  have hcomp : (isWS ∘ Char.toLower) = isWS := by
    funext c
    exact isWS_toLower c
  unfold stripL
  rw [List.dropWhile_map, hcomp, ← List.map_reverse, List.dropWhile_map, hcomp,
      ← List.map_reverse]

theorem map_toLower_idem (l : List Char) :
    (l.map Char.toLower).map Char.toLower = l.map Char.toLower := by
  rw [List.map_map]
  apply List.map_congr_left
  intro a _
  exact toLower_toLower a

theorem pyLower_normalizeLine (s : String) :
    pyLower (normalizeLine s) = normalizeLine s := by
  show String.mk (((stripL s.data).map Char.toLower).map Char.toLower)
      = String.mk ((stripL s.data).map Char.toLower)
  rw [map_toLower_idem]

/-- C5: normalization (strip then lowercase, as the source applies to every
input line) is idempotent. -/
theorem normalizeLine_idem (s : String) :
    normalizeLine (normalizeLine s) = normalizeLine s := by
  show String.mk ((stripL ((stripL s.data).map Char.toLower)).map Char.toLower)
      = String.mk ((stripL s.data).map Char.toLower)
  rw [stripL_map_toLower, map_toLower_idem, stripL_idem]

/-- C5 witness at a concrete mixed-case padded input. -/
theorem normalizeLine_idem_witness :
    normalizeLine (normalizeLine "  A b\tC ") = normalizeLine "  A b\tC " :=
  normalizeLine_idem "  A b\tC "

-- The dictionary `brain` with Python dict semantics.

/-- The `brain` dictionary: phrase-to-response pairs with unique keys. -/
abbrev Brain := List (String × String)

/-- Python `brain[q]` / the read side of `q in brain`. -/
def dlookup : Brain → String → Option String
  | [], _ => none
  | (k, v) :: t, q => if k = q then some v else dlookup t q

/-- Python `q in brain`. -/
def dmem (t : Brain) (q : String) : Bool := (dlookup t q).isSome

/-- Python `brain[k] = v`: overwrite the entry for `k` if present,
otherwise append a new one. -/
def dinsert (t : Brain) (k v : String) : Brain :=
  if dmem t k then t.map (fun p => if p.1 = k then (k, v) else p)
  else t ++ [(k, v)]

-- The REPL loop.

/-- How the `while True:` loop ends: `break` on `quit`, or an uncaught
`EOFError` from `input()` when stdin is exhausted. -/
inductive Outcome where
  | quitExit
  | eofCrash
  deriving DecidableEq, Repr

/-- Result of running the loop: final `brain`, the `print`ed lines
(in order), and how the loop ended. -/
structure SessionResult where
  table : Brain
  outputs : List String
  outcome : Outcome
  deriving DecidableEq, Repr

/-- The `while True:` loop of the source, run over a finite stdin script.
Each iteration: read a line (EOF crashes), strip+lower it, `break` if it
(re-lowercased, as in `user.lower()=="quit"`) equals `"quit"`, reply if the
phrase is known, otherwise print the fixed message, read a teaching line
(EOF crashes), store `brain[user] = teach` and print the acknowledgement. -/
def session (t : Brain) : List String → SessionResult
  | [] => ⟨t, [], Outcome.eofCrash⟩
  | line :: rest =>
    let user := normalizeLine line
    if pyLower user = "quit" then ⟨t, [], Outcome.quitExit⟩
    else
      match dlookup t user with
      | some resp =>
        let r := session t rest
        ⟨r.table, ("Bot: " ++ resp) :: r.outputs, r.outcome⟩
      | none =>
        match rest with
        | [] => ⟨t, ["Bot: I don\x27t know what to say"], Outcome.eofCrash⟩
        | teach :: rest2 =>
          let r := session (dinsert t user teach) rest2
          ⟨r.table, "Bot: I don\x27t know what to say" ::
            "Bot: Got it! I\x27ll remember that" :: r.outputs, r.outcome⟩

-- Startup: `chat_memory.json` handling.

/-- JSON values, the possible results of `json.load`. -/
inductive Json where
  | null
  | bool (b : Bool)
  | num (n : Int)
  | str (s : String)
  | arr (elems : List Json)
  | obj (fields : List (String × Json))

/-- Result of the startup block: either `brain` is bound to a JSON value, or
`json.load` raised (uncaught, so the process dies at startup). -/
inductive LoadResult where
  | ok (v : Json)
  | corrupt

/-- The startup block, over the parse outcome of `chat_memory.json`:
`none` - the file does not exist (`os.path.exists` is false), so
`brain = {}`; `some none` - the file exists but is not valid JSON, so
`json.load` raises; `some (some v)` - the file exists and parses to `v`,
and `brain = v` unchanged, whatever shape `v` has. -/
def load : Option (Option Json) → LoadResult
  | none => LoadResult.ok (Json.obj [])
  | some none => LoadResult.corrupt
  | some (some v) => LoadResult.ok v

/-- The keys of the loaded `brain` when it is a JSON object: exactly the
keys of the file, taken as-is (the startup block applies no normalization). -/
def jsonKeys : Json → List String
  | Json.obj fields => fields.map Prod.fst
  | _ => []

/-- The in-memory table for a loaded JSON value, covering the runs where the
file holds an object of string pairs (the storage format of the spec).
Entries whose value is not a string, and non-object top-level values, have
no table entries here; the runs proved below use only the
object-of-strings case. -/
def jsonToTable : Json → Brain
  | Json.obj fields =>
      fields.filterMap (fun p => match p.2 with
        | Json.str s => some (p.1, s)
        | _ => none)
  | _ => []

/-- Process exit code for each loop outcome: `break` falls off the script
normally (exit 0); an uncaught `EOFError` makes Python exit non-zero. -/
def exitCodeOf : Outcome → Nat
  | Outcome.quitExit => 0
  | Outcome.eofCrash => 1

/-- Observable result of one whole process run. -/
structure RunResult where
  exitCode : Nat
  finalTable : Brain
  finalStorage : Option (Option Json)

/-- One whole process run: startup load, then the loop.  The source contains
no write to `chat_memory.json`, so the storage state is returned exactly as
it was at startup.  An uncaught `json.load` error at startup exits non-zero
before the loop runs. -/
def runProgram (fs : Option (Option Json)) (inputs : List String) : RunResult :=
  match load fs with
  | LoadResult.corrupt => ⟨1, [], fs⟩
  | LoadResult.ok v =>
    let r := session (jsonToTable v) inputs
    ⟨exitCodeOf r.outcome, r.table, fs⟩

-- Dictionary lemmas.

theorem dlookup_append {t1 t2 : Brain} {q : String} :
    dlookup (t1 ++ t2) q =
      match dlookup t1 q with
      | some r => some r
      | none => dlookup t2 q := by
  induction t1 with
  | nil => rfl
  | cons p t ih =>
    obtain ⟨k, v⟩ := p
    by_cases h : k = q
    · simp [dlookup, h]
    · simp [dlookup, h, ih]

theorem dinsert_absent {t : Brain} {k v : String} (h : dlookup t k = none) :
    dinsert t k v = t ++ [(k, v)] := by
  simp [dinsert, dmem, h]

theorem dlookup_dinsert_self {t : Brain} {k v : String} (h : dlookup t k = none) :
    dlookup (dinsert t k v) k = some v := by
  rw [dinsert_absent h, dlookup_append, h]
  simp [dlookup]

theorem dlookup_dinsert_of_lookup {t : Brain} {k v q r : String}
    (hq : dlookup t q = some r) (hk : dlookup t k = none) :
    dlookup (dinsert t k v) q = some r := by
  rw [dinsert_absent hk, dlookup_append, hq]

-- Unfolding lemmas for the loop, one per branch.

theorem session_nil (t : Brain) : session t [] = ⟨t, [], Outcome.eofCrash⟩ := rfl

theorem session_cons_quit {t : Brain} {line : String} {rest : List String}
    (h : pyLower (normalizeLine line) = "quit") :
    session t (line :: rest) = ⟨t, [], Outcome.quitExit⟩ := by
  rw [session.eq_def]
  simp [h]

theorem session_cons_known {t : Brain} {line resp : String} {rest : List String}
    (hq : pyLower (normalizeLine line) ≠ "quit")
    (hl : dlookup t (normalizeLine line) = some resp) :
    session t (line :: rest) =
      ⟨(session t rest).table, ("Bot: " ++ resp) :: (session t rest).outputs,
        (session t rest).outcome⟩ := by
  rw [session.eq_def]
  simp [hq, hl]

theorem session_cons_teach {t : Brain} {line teachResp : String}
    {rest : List String}
    (hq : pyLower (normalizeLine line) ≠ "quit")
    (hl : dlookup t (normalizeLine line) = none) :
    session t (line :: teachResp :: rest) =
      ⟨(session (dinsert t (normalizeLine line) teachResp) rest).table,
        "Bot: I don\x27t know what to say" ::
          "Bot: Got it! I\x27ll remember that" ::
          (session (dinsert t (normalizeLine line) teachResp) rest).outputs,
        (session (dinsert t (normalizeLine line) teachResp) rest).outcome⟩ := by
  simp [session, hq, hl]

theorem session_cons_teach_eof {t : Brain} {line : String}
    (hq : pyLower (normalizeLine line) ≠ "quit")
    (hl : dlookup t (normalizeLine line) = none) :
    session t [line] =
      ⟨t, ["Bot: I don\x27t know what to say"], Outcome.eofCrash⟩ := by
  simp [session, hq, hl]

theorem pyLower_normalizeLine_ne {line : String}
    (h : normalizeLine line ≠ "quit") : pyLower (normalizeLine line) ≠ "quit" := by
  rw [pyLower_normalizeLine]
  exact h

-- Session-wide invariants.

theorem session_preserves_entry (k r : String) :
    ∀ (t : Brain) (inputs : List String), dlookup t k = some r →
      dlookup (session t inputs).table k = some r := by
  intro t inputs
  induction t, inputs using session.induct with
  | case1 t =>
    intro h
    rw [session_nil]
    exact h
  | case2 t line rest2 user hq =>
    intro h
    rw [session_cons_quit hq]
    exact h
  | case3 t line rest2 user hq resp hl ih =>
    intro h
    rw [session_cons_known hq hl]
    exact ih h
  | case4 t line user hq hl =>
    intro h
    rw [session_cons_teach_eof hq hl]
    exact h
  | case5 t line user hq hl teachResp rest2 ih =>
    intro h
    rw [session_cons_teach hq hl]
    exact ih (dlookup_dinsert_of_lookup h hl)

/-- Invariant of C7: every key in the table equals its own normalization. -/
def keysNormalized (t : Brain) : Prop := ∀ p ∈ t, normalizeLine p.1 = p.1

theorem keysNormalized_dinsert {t : Brain} {k v : String}
    (ht : keysNormalized t) (hk : normalizeLine k = k) :
    keysNormalized (dinsert t k v) := by
  unfold dinsert
  split
  · intro p hp
    rw [List.mem_map] at hp
    obtain ⟨q, hq, hpq⟩ := hp
    by_cases h : q.1 = k
    · rw [if_pos h] at hpq
      rw [← hpq]
      exact hk
    · rw [if_neg h] at hpq
      rw [← hpq]
      exact ht q hq
  · intro p hp
    rw [List.mem_append] at hp
    cases hp with
    | inl h => exact ht p h
    | inr h =>
      rw [List.mem_singleton] at h
      rw [h]
      exact hk

theorem session_keysNormalized :
    ∀ (t : Brain) (inputs : List String), keysNormalized t →
      keysNormalized (session t inputs).table := by
  intro t inputs
  induction t, inputs using session.induct with
  | case1 t =>
    intro h
    rw [session_nil]
    exact h
  | case2 t line rest2 user hq =>
    intro h
    rw [session_cons_quit hq]
    exact h
  | case3 t line rest2 user hq resp hl ih =>
    intro h
    rw [session_cons_known hq hl]
    exact ih h
  | case4 t line user hq hl =>
    intro h
    rw [session_cons_teach_eof hq hl]
    exact h
  | case5 t line user hq hl teachResp rest2 ih =>
    intro h
    rw [session_cons_teach hq hl]
    exact ih (keysNormalized_dinsert h (normalizeLine_idem line))

theorem dropWhile_all_ws {l : List Char} (h : l.all isWS = true) :
    l.dropWhile isWS = [] := by
  induction l with
  | nil => rfl
  | cons a t ih =>
    simp only [List.all_cons, Bool.and_eq_true] at h
    rw [List.dropWhile_cons_of_pos h.1, ih h.2]

theorem normalizeLine_ws {s : String} (h : s.data.all isWS = true) :
    normalizeLine s = "" := by
  have h0 : stripL s.data = [] := by
    unfold stripL
    rw [dropWhile_all_ws h]
    rfl
  show String.mk ((stripL s.data).map Char.toLower) = ""
  rw [h0]
  rfl

-- Claim theorems.

/-- C1: the program writes nothing back to `chat_memory.json`.  Starting with
no storage file and teaching "hello" before quitting, the table at exit holds
the taught pair, but the storage is untouched, so a subsequent `load` yields
the empty table, not the table as it stood at exit. -/
theorem teach_not_persisted :
    (runProgram none ["hello", "hi there", "quit"]).finalTable
        = [("hello", "hi there")] ∧
    (runProgram none ["hello", "hi there", "quit"]).exitCode = 0 ∧
    (runProgram none ["hello", "hi there", "quit"]).finalStorage = none ∧
    load (runProgram none ["hello", "hi there", "quit"]).finalStorage
        = LoadResult.ok (Json.obj []) ∧
    jsonToTable (Json.obj [])
        ≠ (runProgram none ["hello", "hi there", "quit"]).finalTable :=
  ⟨by decide, rfl, rfl, rfl, by decide⟩

/-- C2: end-of-input does not end the session cleanly: `input()` raises an
uncaught `EOFError`, so the process exits non-zero, while a typed `quit`
exits with code 0. -/
theorem eof_exit_nonzero :
    (runProgram none []).exitCode = 1 ∧
    (session ([] : Brain) []).outcome = Outcome.eofCrash ∧
    (runProgram none ["quit"]).exitCode = 0 :=
  ⟨rfl, rfl, rfl⟩

/-- C3: a line whose trimmed, lowercased form is exactly "quit" ends the
session at once: nothing is printed, the table is unchanged (so no entry was
added and no teach flow entered), and the loop breaks. -/
theorem quit_short_circuits (t : Brain) (line : String) (rest : List String)
    (h : normalizeLine line = "quit") :
    session t (line :: rest) = ⟨t, [], Outcome.quitExit⟩ := by
  apply session_cons_quit
  rw [h]
  decide

/-- C3 witness at the input " QUIT ". -/
theorem quit_short_circuits_witness :
    normalizeLine " QUIT " = "quit" ∧
      session [("a", "b")] [" QUIT ", "c"] =
        ⟨[("a", "b")], [], Outcome.quitExit⟩ :=
  ⟨by decide, quit_short_circuits [("a", "b")] " QUIT " ["c"] (by decide)⟩

/-- C4: from the empty table, teaching phrase "hello" with response
"hi there" makes any later input normalizing to "hello" get exactly
"hi there": the taught entry looks up to "hi there", and the session run
teaching "hello" and then reading such an input prints the stored response
for it. -/
theorem lookup_after_teach (s : String) (rest : List String)
    (h : normalizeLine s = "hello") :
    dlookup (dinsert [] "hello" "hi there") (normalizeLine s)
        = some "hi there" ∧
    session [] ("hello" :: "hi there" :: s :: rest) =
      ⟨(session [("hello", "hi there")] rest).table,
        "Bot: I don\x27t know what to say" ::
          "Bot: Got it! I\x27ll remember that" ::
          ("Bot: " ++ "hi there") ::
          (session [("hello", "hi there")] rest).outputs,
        (session [("hello", "hi there")] rest).outcome⟩ := by
  constructor
  · rw [h]
    decide
  · have hq2 : pyLower (normalizeLine s) ≠ "quit" := by
      rw [h]
      decide
    have hl2 : dlookup [("hello", "hi there")] (normalizeLine s)
        = some "hi there" := by
      rw [h]
      decide
    rw [session_cons_teach (by decide) (by decide)]
    have e : dinsert [] (normalizeLine "hello") "hi there"
        = [("hello", "hi there")] := by decide
    rw [e, session_cons_known hq2 hl2]

/-- C4 witness at the input " Hello ". -/
theorem lookup_after_teach_witness :
    normalizeLine " Hello " = "hello" ∧
      (dlookup (dinsert [] "hello" "hi there") (normalizeLine " Hello ")
          = some "hi there" ∧
        session [] ("hello" :: "hi there" :: " Hello " :: []) =
          ⟨(session [("hello", "hi there")] []).table,
            "Bot: I don\x27t know what to say" ::
              "Bot: Got it! I\x27ll remember that" ::
              ("Bot: " ++ "hi there") ::
              (session [("hello", "hi there")] []).outputs,
            (session [("hello", "hi there")] []).outcome⟩) :=
  ⟨by decide, lookup_after_teach " Hello " [] (by decide)⟩

/-- C6 counterexample: a storage file holding the JSON text `{}` exists and
`load` returns the empty table for it, so an empty result does not imply the
file is missing; and a file holding `[3]` parses as JSON that is not a
key/value object, yet `load` does not signal corruption for it. -/
theorem load_iff_counterexample :
    load (some (some (Json.obj []))) = LoadResult.ok (Json.obj []) ∧
    jsonToTable (Json.obj []) = ([] : Brain) ∧
    (some (some (Json.obj [])) : Option (Option Json)) ≠ none ∧
    load (some (some (Json.arr [Json.num 3]))) =
      LoadResult.ok (Json.arr [Json.num 3]) ∧
    LoadResult.ok (Json.arr [Json.num 3]) ≠ LoadResult.corrupt :=
  ⟨rfl, rfl, fun h => Option.noConfusion h, rfl,
    fun h => LoadResult.noConfusion h⟩

/-- C6 amended: `load` signals the fatal error exactly when the file exists
but its contents are not valid JSON; it returns the empty table when no file
exists; and whatever JSON value the file parses to becomes the in-memory
`brain` unchanged, object or not. -/
theorem load_amended (fs : Option (Option Json)) :
    (load fs = LoadResult.corrupt ↔ fs = some none) ∧
    (fs = none → load fs = LoadResult.ok (Json.obj [])) ∧
    ∀ v, fs = some (some v) → load fs = LoadResult.ok v := by
  rcases fs with _ | fs2
  · simp [load]
  · rcases fs2 with _ | v
    · simp [load]
    · simp [load]

/-- C6 amended witness: a present-but-unparseable file is fatal. -/
theorem load_amended_witness : load (some none) = LoadResult.corrupt :=
  (load_amended (some none)).1.mpr rfl

/-- C7 counterexample: the startup load takes keys from the file as-is, so a
file object with key "Hello" puts an unnormalized key in the table right
after load. -/
theorem load_key_unnormalized :
    load (some (some (Json.obj [("Hello", Json.str "x")]))) =
      LoadResult.ok (Json.obj [("Hello", Json.str "x")]) ∧
    jsonKeys (Json.obj [("Hello", Json.str "x")]) = ["Hello"] ∧
    normalizeLine "Hello" ≠ "Hello" :=
  ⟨rfl, rfl, by decide⟩

/-- C7 amended: every key the session itself inserts is normalized, so if
every key of the loaded table is already normalized, the invariant holds
after every step of the session; the load itself does not normalize the
file keys. -/
theorem keys_normalized_preserved (t : Brain) (inputs : List String)
    (h : keysNormalized t) : keysNormalized (session t inputs).table :=
  session_keysNormalized t inputs h

/-- C7 amended witness: a normalized table stays normalized through a
session that teaches a new (normalized) key. -/
theorem keys_normalized_preserved_witness :
    keysNormalized [("hello", "x")] ∧
      keysNormalized (session [("hello", "x")] [" Hi ", "yo", "quit"]).table :=
  ⟨by unfold keysNormalized; decide,
    keys_normalized_preserved [("hello", "x")] [" Hi ", "yo", "quit"]
      (by unfold keysNormalized; decide)⟩

/-- C8: for an unknown phrase the teach flow stores the pair
(normalized phrase, raw teaching line) with the response kept verbatim, and
prints the fixed acknowledgement after the fixed unknown-phrase message
before looping. -/
theorem teach_flow_stores_verbatim (t : Brain) (line resp : String)
    (rest : List String) (hq : normalizeLine line ≠ "quit")
    (hl : dlookup t (normalizeLine line) = none) :
    session t (line :: resp :: rest) =
      ⟨(session (dinsert t (normalizeLine line) resp) rest).table,
        "Bot: I don\x27t know what to say" ::
          "Bot: Got it! I\x27ll remember that" ::
          (session (dinsert t (normalizeLine line) resp) rest).outputs,
        (session (dinsert t (normalizeLine line) resp) rest).outcome⟩ ∧
      dlookup (dinsert t (normalizeLine line) resp) (normalizeLine line) =
        some resp :=
  ⟨session_cons_teach (pyLower_normalizeLine_ne hq) hl, dlookup_dinsert_self hl⟩

/-- C8 witness with a raw mixed-case, padded response. -/
theorem teach_flow_stores_verbatim_witness :
    (normalizeLine "what" ≠ "quit" ∧
        dlookup [] (normalizeLine "what") = none) ∧
      (session [] ("what" :: " A raw  RESPONSE " :: []) =
          ⟨(session (dinsert [] (normalizeLine "what") " A raw  RESPONSE ") []).table,
            "Bot: I don\x27t know what to say" ::
              "Bot: Got it! I\x27ll remember that" ::
              (session (dinsert [] (normalizeLine "what") " A raw  RESPONSE ") []).outputs,
            (session (dinsert [] (normalizeLine "what") " A raw  RESPONSE ") []).outcome⟩ ∧
        dlookup (dinsert [] (normalizeLine "what") " A raw  RESPONSE ")
            (normalizeLine "what") = some " A raw  RESPONSE ") :=
  ⟨⟨by decide, by decide⟩,
    teach_flow_stores_verbatim [] "what" " A raw  RESPONSE " [] (by decide)
      (by decide)⟩

/-- C9: an entry present in the table keeps exactly its stored response for
the whole rest of the session (the teach branch is reachable only for absent
phrases, and teaching an absent phrase leaves every other entry unchanged),
and any single iteration on a phrase already stored either replies with the
stored response or, if the line is "quit", exits. -/
theorem known_entries_stable (t : Brain) (inputs : List String) (k r : String)
    (h : dlookup t k = some r) :
    dlookup (session t inputs).table k = some r ∧
    (∀ line rest, normalizeLine line = k → pyLower k ≠ "quit" →
      session t (line :: rest) =
        ⟨(session t rest).table, ("Bot: " ++ r) :: (session t rest).outputs,
          (session t rest).outcome⟩) := by
  constructor
  · exact session_preserves_entry k r t inputs h
  · intro line rest hk hq
    apply session_cons_known
    · rw [hk]
      exact hq
    · rw [hk]
      exact h

/-- C9 witness: the entry for "hi" survives a session that teaches another
phrase, and replying to "hi" leaves it in place. -/
theorem known_entries_stable_witness :
    dlookup [("hi", "yo")] "hi" = some "yo" ∧
      (dlookup (session [("hi", "yo")] ["new", "resp", "quit"]).table "hi"
          = some "yo" ∧
        (∀ line rest, normalizeLine line = "hi" → pyLower "hi" ≠ "quit" →
          session [("hi", "yo")] (line :: rest) =
            ⟨(session [("hi", "yo")] rest).table,
              ("Bot: " ++ "yo") :: (session [("hi", "yo")] rest).outputs,
              (session [("hi", "yo")] rest).outcome⟩)) :=
  ⟨by decide,
    known_entries_stable [("hi", "yo")] ["new", "resp", "quit"] "hi" "yo"
      (by decide)⟩

/-- C10: a whitespace-only line normalizes to the empty string and is not
special-cased: it is looked up like any phrase; when "" is stored its
response is printed; when "" is absent the teach flow stores the teaching
line under the ""-key, and later empty inputs then find it. -/
theorem empty_input_not_special (t : Brain) (s resp : String)
    (rest : List String) (hws : s.data.all isWS = true) :
    normalizeLine s = "" ∧
    (∀ r, dlookup t "" = some r →
      session t (s :: rest) =
        ⟨(session t rest).table, ("Bot: " ++ r) :: (session t rest).outputs,
          (session t rest).outcome⟩) ∧
    (dlookup t "" = none →
      session t (s :: resp :: rest) =
        ⟨(session (dinsert t "" resp) rest).table,
          "Bot: I don\x27t know what to say" ::
            "Bot: Got it! I\x27ll remember that" ::
            (session (dinsert t "" resp) rest).outputs,
          (session (dinsert t "" resp) rest).outcome⟩ ∧
      dlookup (dinsert t "" resp) "" = some resp) := by
  have hn : normalizeLine s = "" := normalizeLine_ws hws
  refine ⟨hn, ?_, ?_⟩
  · intro r hr
    apply session_cons_known
    · rw [hn]
      decide
    · rw [hn]
      exact hr
  · intro hnone
    constructor
    · rw [session_cons_teach (by rw [hn]; decide) (by rw [hn]; exact hnone), hn]
    · exact dlookup_dinsert_self hnone

/-- C10 witness at the two-space input on the empty table. -/
theorem empty_input_not_special_witness :
    ("  ".data.all isWS = true) ∧
      (normalizeLine "  " = "" ∧
        (∀ r, dlookup [] "" = some r →
          session [] ("  " :: []) =
            ⟨(session [] []).table, ("Bot: " ++ r) :: (session [] []).outputs,
              (session [] []).outcome⟩) ∧
        (dlookup [] "" = none →
          session [] ("  " :: "nothing" :: []) =
            ⟨(session (dinsert [] "" "nothing") []).table,
              "Bot: I don\x27t know what to say" ::
                "Bot: Got it! I\x27ll remember that" ::
                (session (dinsert [] "" "nothing") []).outputs,
              (session (dinsert [] "" "nothing") []).outcome⟩ ∧
          dlookup (dinsert [] "" "nothing") "" = some "nothing")) :=
  ⟨by decide, empty_input_not_special [] "  " "nothing" [] (by decide)⟩
